import Mathlib

/-!
FoCalculator: the calculator of `src/script.js`.

A shallow embedding of the `Calculator` class: the basic-mode arithmetic
state (`appendNumber`, `addDecimal`, `deleteDigit`, `chooseOperation`,
`calculate`, `calculatePercentage`, `clearCalculator`, `handleAction`), the
unit converter (`validateConverterInput`, `updateConverterResult`,
`convertTemperature`) and the text processing of `evaluateExpression` with
`factorial`.

Numbers.  JavaScript numbers are IEEE doubles.  The embedding takes
arithmetic exactly: a finite number is a rational, and `NaN` and the two
infinities are kept as separate values.  Rounding of intermediate results to
the nearest double, overflow to infinity and the sign of zero are therefore
not represented.

Strings.  A JavaScript string is a Lean `String`; the functions that scan
text work on its list of characters.

Host.  What the browser supplies and the repository does not define is a
parameter: the conversion of a number to text (`numberToString`) and the
dynamic evaluation of source text through `Function` (`run`).  Writes to the
page (`updateDisplay`) carry no calculator state and are left out; messages
shown with `alert` are appended to the field `alerts`.
-/

namespace FoCalculator

/-! ## Numbers -/

/-- A JavaScript number under exact arithmetic. -/
inductive Num where
  | nan
  | inf (negative : Bool)
  | fin (q : ℚ)
deriving DecidableEq

namespace Num

/-- Unary minus. -/
def neg : Num → Num
  | nan => nan
  | inf s => inf (!s)
  | fin q => fin (-q)

/-- The operator `+` on numbers. -/
def add : Num → Num → Num
  | fin a, fin b => fin (a + b)
  | inf s, inf t => if s = t then inf s else nan
  | inf s, fin _ => inf s
  | fin _, inf t => inf t
  | _, _ => nan

/-- The operator `-` on numbers. -/
def sub (a b : Num) : Num := add a (neg b)

/-- The operator `*` on numbers. -/
def mul : Num → Num → Num
  | fin a, fin b => fin (a * b)
  | inf s, inf t => inf (s != t)
  | inf s, fin b => if b = 0 then nan else inf (s != decide (b < 0))
  | fin a, inf t => if a = 0 then nan else inf (t != decide (a < 0))
  | _, _ => nan

/-- The operator `/` on numbers; a zero divisor is taken as positive zero. -/
def div : Num → Num → Num
  | fin a, fin b =>
    if b = 0 then (if a = 0 then nan else inf (decide (a < 0))) else fin (a / b)
  | inf s, fin b => inf (s != decide (b < 0))
  | fin _, inf _ => fin 0
  | _, _ => nan

/-- The function `Math.round`: the nearest integer, halves toward plus infinity. -/
def round : Num → Num
  | fin q => fin (⌊q + 1 / 2⌋ : ℤ)
  | x => x

/-- The function `Math.floor`. -/
def floor : Num → Num
  | fin q => fin (⌊q⌋ : ℤ)
  | x => x

/-- The function `isNaN` on a number. -/
def isNaN : Num → Bool
  | nan => true
  | _ => false

/-- Truthiness of a number: every number but zero and `NaN`. -/
def truthy : Num → Bool
  | nan => false
  | inf _ => true
  | fin q => decide (q ≠ 0)

end Num

/-! ## Text scanning shared by `parseFloat`, `trim` and the pattern `\s` -/

/-- The white space and line terminator characters of JavaScript. -/
def isWhiteSpace (c : Char) : Bool :=
  [9, 10, 11, 12, 13, 32, 160, 5760, 8232, 8233, 8239, 8287, 12288, 65279].contains c.toNat
    || (decide (8192 ≤ c.toNat) && decide (c.toNat ≤ 8202))

/-- The decimal digits `0` to `9`, the class `\d`. -/
def isDigit (c : Char) : Bool :=
  decide (48 ≤ c.toNat) && decide (c.toNat ≤ 57)

/-- The value of a run of decimal digits. -/
def digitsValue (cs : List Char) : ℕ :=
  cs.foldl (fun n c => 10 * n + (c.toNat - 48)) 0

/-- Ten to an integer power, as a rational. -/
def pow10 (e : ℤ) : ℚ :=
  if 0 ≤ e then (10 : ℚ) ^ e.toNat else 1 / (10 : ℚ) ^ (-e).toNat

/-- The exponent denoted by the longest exponent part (`e` or `E`, an optional
sign, at least one digit) at the head of the text; `0` when there is none. -/
def parseExponent : List Char → ℤ
  | c :: rest =>
    if c = 'e' ∨ c = 'E' then
      match rest with
      | '+' :: ds => (digitsValue (ds.takeWhile isDigit) : ℤ)
      | '-' :: ds => -(digitsValue (ds.takeWhile isDigit) : ℤ)
      | ds => (digitsValue (ds.takeWhile isDigit) : ℤ)
    else 0
  | [] => 0

/-- The value of the longest unsigned decimal literal at the head of the text:
digits with an optional fraction, or a fraction alone, each with an optional
exponent part; `none` when the text starts with no such literal. -/
def parseUnsigned (cs : List Char) : Option ℚ :=
  let ip := cs.takeWhile isDigit
  match cs.dropWhile isDigit with
  | '.' :: r =>
    let fp := r.takeWhile isDigit
    if ip = [] ∧ fp = [] then none
    else some ((digitsValue (ip ++ fp) : ℚ) / (10 : ℚ) ^ fp.length
      * pow10 (parseExponent (r.dropWhile isDigit)))
  | r =>
    if ip = [] then none
    else some ((digitsValue ip : ℚ) * pow10 (parseExponent r))

/-- An unsigned literal or the word `Infinity` at the head of the text. -/
def parseUnsignedNum (cs : List Char) : Num :=
  if "Infinity".data.isPrefixOf cs then Num.inf false
  else match parseUnsigned cs with
    | some q => Num.fin q
    | none => Num.nan

/-- The function `parseFloat` on text: leading white space is skipped, then the
longest prefix that is a signed decimal literal is read; `NaN` when there is
no such prefix. -/
def parseFloatChars (cs : List Char) : Num :=
  match cs.dropWhile isWhiteSpace with
  | '-' :: r => Num.neg (parseUnsignedNum r)
  | '+' :: r => parseUnsignedNum r
  | r => parseUnsignedNum r

/-! ## Calculator state -/

/-- A value held in an operand field: text, or a number (the result that
`calculate` stores without converting it to text). -/
inductive Value where
  | str (s : String)
  | num (n : Num)
deriving DecidableEq

/-- The function `parseFloat` on a value.  A number is first converted to text
and read back, which returns the number itself. -/
def parseFloat : Value → Num
  | Value.str s => parseFloatChars s.data
  | Value.num n => n

/-- Truthiness of a value: a non-empty text, or a number other than zero and `NaN`. -/
def Value.truthy : Value → Bool
  | Value.str s => decide (s ≠ "")
  | Value.num n => n.truthy

/-- The names stored in `this.operation`. -/
inductive Operation where
  | add
  | subtract
  | multiply
  | divide
  | percent
deriving DecidableEq

/-- The calculator fields the arithmetic reads and writes, the text of the
expression input and the messages shown by `alert` so far. -/
structure State where
  currentOperand : Value
  previousOperand : Value
  operation : Option Operation
  shouldResetScreen : Bool
  expressionInput : String
  alerts : List String
deriving DecidableEq

/-- The state the constructor sets up. -/
def initialState : State where
  currentOperand := Value.str "0"
  previousOperand := Value.str ""
  operation := none
  shouldResetScreen := false
  expressionInput := ""
  alerts := []

/-- The method `clearCalculator`. -/
def clearCalculator (s : State) : State :=
  { s with
    currentOperand := Value.str "0"
    previousOperand := Value.str ""
    operation := none
    expressionInput := "" }

/-- The final step of `calculate`: `Math.round(computation * 100000000) / 100000000`. -/
def roundTo8 (computation : Num) : Num :=
  Num.div (Num.round (Num.mul computation (Num.fin 100000000))) (Num.fin 100000000)

/-- The method `calculate`. -/
def calculate (s : State) : State :=
  let prev := parseFloat s.previousOperand
  let current := parseFloat s.currentOperand
  if prev.isNaN || current.isNaN then s
  else
    let finish (computation : Num) : State :=
      { s with
        currentOperand := Value.num (roundTo8 computation)
        operation := none
        previousOperand := Value.str ""
        shouldResetScreen := true }
    match s.operation with
    | some Operation.add => finish (Num.add prev current)
    | some Operation.subtract => finish (Num.sub prev current)
    | some Operation.multiply => finish (Num.mul prev current)
    | some Operation.divide =>
      if current = Num.fin 0 then
        clearCalculator { s with alerts := s.alerts ++ ["Cannot divide by zero!"] }
      else finish (Num.div prev current)
    | some Operation.percent => finish (Num.mul prev (Num.div current (Num.fin 100)))
    | none => s

/-- The method `chooseOperation`. -/
def chooseOperation (s : State) (op : Operation) : State :=
  if s.currentOperand = Value.str "" then s
  else
    let s1 := if s.previousOperand ≠ Value.str "" then calculate s else s
    { s1 with
      operation := some op
      previousOperand := s1.currentOperand
      shouldResetScreen := true }

/-- The operator `+` with text on the right: the left value is converted to
text by the host and the two are concatenated. -/
def Value.concat (numberToString : Num → String) (v : Value) (t : String) : Value :=
  match v with
  | Value.str s => Value.str (s ++ t)
  | Value.num n => Value.str (numberToString n ++ t)

/-- The method `appendNumber`; the argument is the text of the pressed key. -/
def appendNumber (numberToString : Num → String) (s : State) (number : String) : State :=
  if s.currentOperand = Value.str "0" ∨ s.shouldResetScreen = true then
    { s with currentOperand := Value.str number, shouldResetScreen := false }
  else
    { s with currentOperand := Value.concat numberToString s.currentOperand number }

/-- The method `deleteDigit`.  A number has neither `length` nor `slice`: on a
numeric current operand the call of `slice` raises a `TypeError`, the error
case here.  The length counts characters. -/
def deleteDigit (s : State) : Except String State :=
  match s.currentOperand with
  | Value.str t =>
    if t.length = 1 ∨ t = "0" then
      Except.ok { s with currentOperand := Value.str "0" }
    else
      Except.ok { s with currentOperand := Value.str (String.mk t.data.dropLast) }
  | Value.num _ => Except.error "this.currentOperand.slice is not a function"

/-- The method `addDecimal`.  On a numeric current operand the call of
`includes` raises a `TypeError`, the error case here. -/
def addDecimal (s : State) : Except String State :=
  if s.shouldResetScreen = true then
    Except.ok { s with currentOperand := Value.str "0.", shouldResetScreen := false }
  else
    match s.currentOperand with
    | Value.str t =>
      if t.data.contains '.' then Except.ok s
      else Except.ok { s with currentOperand := Value.str (t ++ ".") }
    | Value.num _ => Except.error "this.currentOperand.includes is not a function"

/-- The method `calculatePercentage`. -/
def calculatePercentage (numberToString : Num → String) (s : State) : State :=
  if s.previousOperand = Value.str "" ∨ s.operation = none then
    { s with
      currentOperand :=
        Value.str (numberToString (Num.div (parseFloat s.currentOperand) (Num.fin 100))) }
  else calculate s

/-- The actions of `handleAction` that work on the calculator state.  The
remaining actions insert text into the expression input at the cursor and
leave the operands alone. -/
inductive Action where
  | clear
  | backspace
  | equals
  | decimal
  | percent
  | add
  | subtract
  | multiply
  | divide
  | inverse
deriving DecidableEq

/-- The method `handleAction` on the actions above; the error case is an
exception that leaves the handler. -/
def handleAction (numberToString : Num → String) (s : State) : Action → Except String State
  | Action.clear => Except.ok (clearCalculator s)
  | Action.backspace => deleteDigit s
  | Action.equals => Except.ok (calculate s)
  | Action.decimal => addDecimal s
  | Action.percent => Except.ok (calculatePercentage numberToString s)
  | Action.add => Except.ok (chooseOperation s Operation.add)
  | Action.subtract => Except.ok (chooseOperation s Operation.subtract)
  | Action.multiply => Except.ok (chooseOperation s Operation.multiply)
  | Action.divide => Except.ok (chooseOperation s Operation.divide)
  | Action.inverse =>
    let currentValue := parseFloat s.currentOperand
    if currentValue ≠ Num.fin 0 then
      Except.ok { s with
        currentOperand := Value.str (numberToString (Num.div (Num.fin 1) currentValue))
        shouldResetScreen := true }
    else
      Except.ok { s with alerts := s.alerts ++ ["Cannot divide by zero"] }

/-! ## Unit converter -/

/-- The converter categories, the keys of `conversionFactors`. -/
inductive Category where
  | length
  | weight
  | temperature
  | area
  | volume
deriving DecidableEq

/-- The object `this.conversionFactors`: for each category its units in source
order, with the stored value (a factor, or for temperature the unit name). -/
def conversionFactors : Category → List (String × Value)
  | Category.length =>
    [("meter", Value.num (Num.fin 1)),
     ("kilometer", Value.num (Num.fin 1000)),
     ("centimeter", Value.num (Num.fin (1 / 100))),
     ("millimeter", Value.num (Num.fin (1 / 1000))),
     ("mile", Value.num (Num.fin (160934 / 100))),
     ("yard", Value.num (Num.fin (9144 / 10000))),
     ("foot", Value.num (Num.fin (3048 / 10000))),
     ("inch", Value.num (Num.fin (254 / 10000)))]
  | Category.weight =>
    [("kilogram", Value.num (Num.fin 1)),
     ("gram", Value.num (Num.fin (1 / 1000))),
     ("milligram", Value.num (Num.fin (1 / 1000000))),
     ("pound", Value.num (Num.fin (453592 / 1000000))),
     ("ounce", Value.num (Num.fin (283495 / 10000000))),
     ("ton", Value.num (Num.fin 1000))]
  | Category.temperature =>
    [("celsius", Value.str "celsius"),
     ("fahrenheit", Value.str "fahrenheit"),
     ("kelvin", Value.str "kelvin")]
  | Category.area =>
    [("squareMeter", Value.num (Num.fin 1)),
     ("squareKilometer", Value.num (Num.fin 1000000)),
     ("squareMile", Value.num (Num.fin (258998811 / 100))),
     ("squareYard", Value.num (Num.fin (836127 / 1000000))),
     ("squareFoot", Value.num (Num.fin (92903 / 1000000))),
     ("acre", Value.num (Num.fin (404686 / 100))),
     ("hectare", Value.num (Num.fin 10000))]
  | Category.volume =>
    [("liter", Value.num (Num.fin 1)),
     ("milliliter", Value.num (Num.fin (1 / 1000))),
     ("gallon", Value.num (Num.fin (378541 / 100000))),
     ("quart", Value.num (Num.fin (946353 / 1000000))),
     ("pint", Value.num (Num.fin (473176 / 1000000))),
     ("cup", Value.num (Num.fin (24 / 100))),
     ("cubicMeter", Value.num (Num.fin 1000))]

/-- The property names every object literal inherits from `Object.prototype`. -/
def objectPrototypeKeys : List String :=
  ["constructor", "__defineGetter__", "__defineSetter__", "hasOwnProperty",
   "__lookupGetter__", "__lookupSetter__", "isPrototypeOf", "propertyIsEnumerable",
   "toString", "valueOf", "__proto__", "toLocaleString"]

/-- What reading `table[key]` yields: nothing, a stored value, or a member
inherited from `Object.prototype` (a function or an object). -/
inductive Property where
  | undefined
  | own (v : Value)
  | inherited
deriving DecidableEq

/-- The read `table[key]` on a table written as an object literal. -/
def getProperty (table : List (String × Value)) (key : String) : Property :=
  match table.lookup key with
  | some v => Property.own v
  | none => if objectPrototypeKeys.contains key then Property.inherited else Property.undefined

/-- Truthiness of a property read. -/
def Property.truthy : Property → Bool
  | Property.undefined => false
  | Property.own v => v.truthy
  | Property.inherited => true

/-- A property read used as an arithmetic operand.  A stored number is itself;
the texts stored in the tables are unit names, which like `undefined` and the
inherited members convert to `NaN`. -/
def Property.toNumber : Property → Num
  | Property.own (Value.num n) => n
  | _ => Num.nan

/-- The method `convertTemperature`. -/
def convertTemperature (value : Num) (fromUnit toUnit : String) : Num :=
  let celsius :=
    if fromUnit = "celsius" then value
    else if fromUnit = "fahrenheit" then
      Num.div (Num.mul (Num.sub value (Num.fin 32)) (Num.fin 5)) (Num.fin 9)
    else if fromUnit = "kelvin" then Num.sub value (Num.fin (27315 / 100))
    else value
  if toUnit = "celsius" then celsius
  else if toUnit = "fahrenheit" then
    Num.add (Num.div (Num.mul celsius (Num.fin 9)) (Num.fin 5)) (Num.fin 32)
  else if toUnit = "kelvin" then Num.add celsius (Num.fin (27315 / 100))
  else celsius

/-- The final step of `updateConverterResult`: `Math.round(result * 1000000) / 1000000`. -/
def roundTo6 (result : Num) : Num :=
  Num.div (Num.round (Num.mul result (Num.fin 1000000))) (Num.fin 1000000)

/-- The number `updateConverterResult` reads from the input text: the texts
`""`, `"-"` and `"."` count as `"0"`, and `parseFloat(value) || 0` is taken. -/
def numValue (value : String) : Num :=
  let value := if value = "" ∨ value = "-" ∨ value = "." then "0" else value
  let parsed := parseFloatChars value.data
  if parsed.truthy then parsed else Num.fin 0

/-- The body of `updateConverterResult` after the input text is read: the value
written to the result field. -/
def converterResult (numValue : Num) (category : Category) (fromUnit toUnit : String) : Num :=
  let result :=
    if category = Category.temperature then convertTemperature numValue fromUnit toUnit
    else
      let fromFactor := getProperty (conversionFactors category) fromUnit
      let toFactor := getProperty (conversionFactors category) toUnit
      if fromFactor.truthy && toFactor.truthy then
        Num.div (Num.mul numValue fromFactor.toNumber) toFactor.toNumber
      else numValue
  roundTo6 result

/-- The method `updateConverterResult`, from the text of the value field and
the selected category and units to the value written to the result field. -/
def updateConverterResult (value : String) (category : Category)
    (fromUnit toUnit : String) : Num :=
  converterResult (numValue value) category fromUnit toUnit

/-- The method `validateConverterInput`, from the text of the value field to
the text written back to it. -/
def validateConverterInput (value : String) : String :=
  -- value.replace(/[^0-9.\-]/g, '')
  let v1 := value.data.filter (fun c => isDigit c || c == '.' || c == '-')
  -- more than one decimal point: drop the points at the end, keep the first point
  let v2 :=
    if v1.count '.' > 1 then
      let stripped := (v1.reverse.dropWhile (fun c => c == '.')).reverse
      let first := stripped.takeWhile (fun c => c != '.')
      first ++ '.' :: (stripped.drop first.length).filter (fun c => c != '.')
    else v1
  -- a minus sign goes to the front
  let v3 := if v2.contains '-' then '-' :: v2.filter (fun c => c != '-') else v2
  -- leading zeros
  let v4 :=
    if v3.length > 1 ∧ "0".data.isPrefixOf v3 = true ∧ "0.".data.isPrefixOf v3 = false then
      (if v3.dropWhile (fun c => c == '0') = [] then ['0']
        else v3.dropWhile (fun c => c == '0'))
    else v3
  -- empty
  let v5 := if v4 = [] ∨ v4 = ['-'] ∨ v4 = ['.'] then ['0'] else v4
  -- trailing decimal point
  let v6 := if v5.getLast? = some '.' then v5.dropLast else v5
  String.mk v6

/-! ## Expression evaluation -/

/-- The method `String.prototype.trim`. -/
def trim (s : String) : String :=
  String.mk ((s.data.dropWhile isWhiteSpace).reverse.dropWhile isWhiteSpace).reverse

/-- Replacement of every occurrence of a non-empty literal pattern, scanning
left to right; the counter is the number of characters of the last match
still to be skipped. -/
def replaceAllAux (pat rep : List Char) : ℕ → List Char → List Char
  | _, [] => []
  | skip + 1, _ :: cs => replaceAllAux pat rep skip cs
  | 0, c :: cs =>
    if pat.isPrefixOf (c :: cs) then rep ++ replaceAllAux pat rep (pat.length - 1) cs
    else c :: replaceAllAux pat rep 0 cs

/-- The call `text.replace(/pat/g, rep)` for a literal pattern. -/
def replaceAll (pat rep : String) (text : List Char) : List Char :=
  replaceAllAux pat.data rep.data 0 text

/-- A match of the pattern `(\d+(?:\.\d+)?)\s*!` starting at the head of the
text: the captured literal and the length of the whole match.  Each part takes
as many characters as it can; giving some back never helps, because the
character after a shortened part is a digit or a point and not `!`. -/
def matchFactorialAt (cs : List Char) : Option (List Char × ℕ) :=
  let ip := cs.takeWhile isDigit
  if ip = [] then none
  else
    let r1 := cs.dropWhile isDigit
    let fp := match r1 with
      | '.' :: r => if r.takeWhile isDigit = [] then [] else '.' :: r.takeWhile isDigit
      | _ => []
    let r2 := r1.drop fp.length
    let ws := r2.takeWhile isWhiteSpace
    match r2.dropWhile isWhiteSpace with
    | '!' :: _ => some (ip ++ fp, ip.length + fp.length + ws.length + 1)
    | _ => none

/-- The call `text.match(/(\d+(?:\.\d+)?)\s*!/)`: the captured literal of the
leftmost match, if there is one. -/
def matchFactorial : List Char → Option (List Char)
  | [] => none
  | c :: cs =>
    match matchFactorialAt (c :: cs) with
    | some (lit, _) => some lit
    | none => matchFactorial cs

/-- The call `text.replace(/(\d+(?:\.\d+)?)\s*!/, rep)`: the leftmost match is
replaced, a text without a match is returned as it is. -/
def replaceFactorial (rep : List Char) : List Char → List Char
  | [] => []
  | c :: cs =>
    match matchFactorialAt (c :: cs) with
    | some (_, len) => rep ++ (c :: cs).drop len
    | none => c :: replaceFactorial rep cs

/-- The method `factorial`; `none` stands for a loop that never ends (the bound
plus infinity). -/
def factorial : Num → Option Num
  | Num.nan => some (Num.fin 1)
  | Num.inf true => some Num.nan
  | Num.inf false => none
  | Num.fin n =>
    if n < 0 then some Num.nan
    else if n = 0 ∨ n = 1 then some (Num.fin 1)
    else some (Num.fin ((List.range' 2 (⌊n⌋.toNat - 1)).foldl
      (fun (result : ℚ) (i : ℕ) => result * (i : ℚ)) 1))

/-- The chain of `replace` calls that starts `evaluateExpression`. -/
def replaceFunctions (expression : List Char) : List Char :=
  replaceAll "!" ""
    (replaceAll "^" "**"
      (replaceAll "e" "Math.E"
        (replaceAll "pi" "Math.PI"
          (replaceAll "π" "Math.PI"
            (replaceAll "sqrt(" "Math.sqrt("
              (replaceAll "ln(" "Math.log("
                (replaceAll "log(" "Math.log10("
                  (replaceAll "tan(" "Math.tan(Math.PI/180*"
                    (replaceAll "cos(" "Math.cos(Math.PI/180*"
                      (replaceAll "sin(" "Math.sin(Math.PI/180*" expression))))))))))

/-- The text `processedExpression` that `evaluateExpression` builds from the
trimmed input; `none` when the call of `factorial` does not return. -/
def processExpression (numberToString : Num → String) (expression : String) :
    Option String :=
  let processed := replaceFunctions expression.data
  if expression.data.contains '!' then
    match matchFactorial expression.data with
    | some lit =>
      match factorial (Num.floor (parseFloatChars lit)) with
      | some factorialResult =>
        some (String.mk (replaceFactorial (numberToString factorialResult).data processed))
      | none => none
    | none => some (String.mk processed)
  else some (String.mk processed)

/-- The source text handed to `Function`. -/
def functionBody (processedExpression : String) : String :=
  "\"use strict\"; return (" ++ processedExpression ++ ")"

/-- The method `evaluateExpression`.  The host `run` compiles and runs a source
text and converts the value it returns to text (`result.toString()`); an
exception raised on the way is the error case, with its message.  The result
is `none` when the call of `factorial` does not return. -/
def evaluateExpression (numberToString : Num → String)
    (run : String → Except String String) (s : State) : Option State :=
  let expression := trim s.expressionInput
  if expression = "" then
    if s.operation.isSome && s.previousOperand.truthy then some (calculate s) else some s
  else
    match processExpression numberToString expression with
    | none => none
    | some processedExpression =>
      match run (functionBody processedExpression) with
      | Except.ok result =>
        some { s with currentOperand := Value.str result, shouldResetScreen := true }
      | Except.error message =>
        some { s with alerts := s.alerts ++ ["Invalid expression: " ++ message] }

/-! ## Reference definitions for the statements -/

/-- The factor the table of a category stores for a unit; `none` when the unit
is not a key of the table or the table stores no number for it. -/
def factor (category : Category) (unit : String) : Option ℚ :=
  match (conversionFactors category).lookup unit with
  | some (Value.num (Num.fin f)) => some f
  | _ => none

/-- A number is finite and within `tol` of the rational `v`. -/
def Num.within (tol : ℚ) (x : Num) (v : ℚ) : Prop :=
  match x with
  | Num.fin r => |r - v| ≤ tol
  | _ => False

instance Num.decidableWithin (tol : ℚ) (x : Num) (v : ℚ) : Decidable (Num.within tol x v) := by
  unfold Num.within
  split <;> infer_instance

/-- The keys of the basic entry: a digit, the decimal point, backspace and clear. -/
inductive Key where
  | digit (d : Fin 10)
  | decimal
  | backspace
  | clear
deriving DecidableEq

/-- The text of a digit key, `"0"` to `"9"`. -/
def digitText (d : Fin 10) : String :=
  String.singleton (Char.ofNat (48 + d.val))

/-- One key of the basic entry: `appendNumber` for a digit, `addDecimal`,
`deleteDigit` and `clearCalculator`. -/
def press (numberToString : Num → String) (s : State) : Key → Except String State
  | Key.digit d => Except.ok (appendNumber numberToString s (digitText d))
  | Key.decimal => addDecimal s
  | Key.backspace => deleteDigit s
  | Key.clear => Except.ok (clearCalculator s)

/-- A sequence of keys, pressed from left to right; an exception stops it. -/
def pressAll (numberToString : Num → String) (s : State) : List Key → Except String State
  | [] => Except.ok s
  | k :: ks =>
    match press numberToString s k with
    | Except.ok s1 => pressAll numberToString s1 ks
    | Except.error e => Except.error e

/-- The invariant of an operand text in the words of the specification: not
empty, at most one decimal point, and no leading zero unless the text is
exactly `0` or begins with `0.`. -/
def operandInvariant (t : List Char) : Prop :=
  t ≠ [] ∧ t.count '.' ≤ 1 ∧ (t.head? = some '0' → t = ['0'] ∨ "0.".data.isPrefixOf t = true)

instance operandInvariantDecidable (t : List Char) : Decidable (operandInvariant t) := by
  unfold operandInvariant
  infer_instance

/-- The conversion tables in the words of the specification; temperature has none. -/
def specFactors : Category → List (String × ℚ)
  | Category.length =>
    [("meter", 1), ("kilometer", 1000), ("centimeter", 0.01), ("millimeter", 0.001),
     ("mile", 1609.34), ("yard", 0.9144), ("foot", 0.3048), ("inch", 0.0254)]
  | Category.weight =>
    [("kilogram", 1), ("gram", 0.001), ("milligram", 1e-6), ("pound", 0.453592),
     ("ounce", 0.0283495), ("ton", 1000)]
  | Category.temperature => []
  | Category.area =>
    [("squareMeter", 1), ("squareKilometer", 1e6), ("squareMile", 2589988.11),
     ("squareYard", 0.836127), ("squareFoot", 0.092903), ("acre", 4046.86),
     ("hectare", 10000)]
  | Category.volume =>
    [("liter", 1), ("milliliter", 0.001), ("gallon", 3.78541), ("quart", 0.946353),
     ("pint", 0.473176), ("cup", 0.24), ("cubicMeter", 1000)]

/-- A valid number text in the words of the claim on `validateConverterInput`:
a minus sign only in the first position, at least one digit, at most one
decimal point and no decimal point at the end. -/
def validNumber (t : List Char) : Prop :=
  '-' ∉ t.tail ∧ (∃ c ∈ t, isDigit c = true) ∧ t.count '.' ≤ 1 ∧ t.getLast? ≠ some '.'

instance validNumberDecidable (t : List Char) : Decidable (validNumber t) := by
  unfold validNumber
  infer_instance

/-! ## The arithmetic state machine -/

/-- What `calculate` does on a division by zero, for every state: the alert is
shown and `clearCalculator` runs, which resets the two operands, the operation
and the expression input and leaves `shouldResetScreen` as it was. -/
theorem calculate_divide_zero (s : State) (a : ℚ)
    (ha : parseFloat s.previousOperand = Num.fin a)
    (hb : parseFloat s.currentOperand = Num.fin 0)
    (hop : s.operation = some Operation.divide) :
    calculate s = { s with
      currentOperand := Value.str "0"
      previousOperand := Value.str ""
      operation := none
      expressionInput := ""
      alerts := s.alerts ++ ["Cannot divide by zero!"] } := by
  simp [calculate, ha, hb, hop, clearCalculator, Num.isNaN]

/-- C2: the keys `÷` `=` pressed on the initial state.  `chooseOperation`
leaves `0 ÷` pending with current operand `0` and `shouldResetScreen = true`;
`calculate` then shows the alert and resets the operands and the operation,
but `shouldResetScreen` is still `true`, whereas the constructor sets it to
`false`: the state reached is not the initial state. -/
theorem calculate_divide_zero_keeps_reset_flag :
    chooseOperation initialState Operation.divide =
      ⟨Value.str "0", Value.str "0", some Operation.divide, true, "", []⟩ ∧
    parseFloat (Value.str "0") = Num.fin 0 ∧
    calculate (chooseOperation initialState Operation.divide) =
      ⟨Value.str "0", Value.str "", none, true, "", ["Cannot divide by zero!"]⟩ ∧
    (calculate (chooseOperation initialState Operation.divide)).shouldResetScreen
      ≠ initialState.shouldResetScreen := by
  decide!

/-- C3: on a state with a non-empty current operand, `chooseOperation` with a
non-empty previous operand first runs `calculate`, then stores the resulting
current operand as previous operand, sets the operation and sets
`shouldResetScreen`; with an empty previous operand it stores the current
operand unchanged.  The keys `3 + 4 × 2 =` give `14`. -/
theorem chooseOperation_chained (numberToString : Num → String) (s : State) (op : Operation)
    (hcur : s.currentOperand ≠ Value.str "") :
    (s.previousOperand ≠ Value.str "" →
      chooseOperation s op = { calculate s with
        operation := some op
        previousOperand := (calculate s).currentOperand
        shouldResetScreen := true }) ∧
    (s.previousOperand = Value.str "" →
      chooseOperation s op = { s with
        operation := some op
        previousOperand := s.currentOperand
        shouldResetScreen := true }) ∧
    calculate (appendNumber numberToString
      (chooseOperation (appendNumber numberToString
        (chooseOperation (appendNumber numberToString initialState "3") Operation.add) "4")
        Operation.multiply) "2")
      = ⟨Value.num (Num.fin 14), Value.str "", none, true, "", []⟩ := by
  refine ⟨?_, ?_, ?_⟩
  · intro hprev
    simp [chooseOperation, hcur, hprev]
  · intro hprev
    simp [chooseOperation, hcur, hprev]
  · with_unfolding_all rfl

/-- The state after the keys `3 + 4`: both operands are set, and pressing `×`
resolves the pending addition before storing the operator. -/
theorem chooseOperation_chained_witness :
    (⟨Value.str "4", Value.str "3", some Operation.add, false, "", []⟩ : State).currentOperand
      ≠ Value.str "" ∧
    (⟨Value.str "4", Value.str "3", some Operation.add, false, "", []⟩ : State).previousOperand
      ≠ Value.str "" ∧
    chooseOperation ⟨Value.str "4", Value.str "3", some Operation.add, false, "", []⟩
        Operation.multiply =
      { calculate ⟨Value.str "4", Value.str "3", some Operation.add, false, "", []⟩ with
        operation := some Operation.multiply
        previousOperand :=
          (calculate ⟨Value.str "4", Value.str "3", some Operation.add, false, "", []⟩).currentOperand
        shouldResetScreen := true } :=
  ⟨by decide, by decide,
    (chooseOperation_chained (fun _ => "")
      ⟨Value.str "4", Value.str "3", some Operation.add, false, "", []⟩
      Operation.multiply (by decide)).1 (by decide)⟩

/-! ## The unit converter -/

theorem lookup_mem_values {l : List (String × Value)} {k : String} {v : Value}
    (h : l.lookup k = some v) : v ∈ l.map Prod.snd := by
  induction l with
  | nil => simp [List.lookup] at h
  | cons p l ih =>
    obtain ⟨k1, v1⟩ := p
    simp only [List.lookup] at h
    split at h
    · simp only [Option.some.injEq] at h
      simp [h]
    · simp [ih h]

theorem table_values_pos (category : Category) (f : ℚ)
    (h : Value.num (Num.fin f) ∈ (conversionFactors category).map Prod.snd) : 0 < f := by
  cases category <;> simp [conversionFactors] at h <;>
    casesm* _ ∨ _ <;> subst_vars <;> norm_num

theorem factor_eq_some {category : Category} {unit : String} {f : ℚ}
    (h : factor category unit = some f) :
    (conversionFactors category).lookup unit = some (Value.num (Num.fin f)) := by
  unfold factor at h
  split at h
  · simp_all
  · simp at h

theorem factor_pos {category : Category} {unit : String} {f : ℚ}
    (h : factor category unit = some f) : 0 < f :=
  table_values_pos category f (lookup_mem_values (factor_eq_some h))

/-- C7, as the claim states it, fails: `parsec` is not a key of the length
table, and converting `5` from meters to it reports no error and writes the
number `5`. -/
theorem converter_unknown_unit_counterexample :
    (conversionFactors Category.length).lookup "parsec" = none ∧
    updateConverterResult "5" Category.length "meter" "parsec" = Num.fin 5 := by
  decide!

/-- C7 amended: in a category other than temperature, when the source or the
target unit is not a key of the table (nor a name inherited from
`Object.prototype`), no error is reported: the result is the input value
itself rounded to six decimals. -/
theorem converter_unknown_unit_fallback (v : Num) (category : Category) (u1 u2 : String)
    (hc : category ≠ Category.temperature)
    (h : ((conversionFactors category).lookup u1 = none ∧ u1 ∉ objectPrototypeKeys) ∨
      ((conversionFactors category).lookup u2 = none ∧ u2 ∉ objectPrototypeKeys)) :
    converterResult v category u1 u2 =
      Num.div (Num.round (Num.mul v (Num.fin 1000000))) (Num.fin 1000000) := by
  have key : ∀ u, (conversionFactors category).lookup u = none → u ∉ objectPrototypeKeys →
      (getProperty (conversionFactors category) u).truthy = false := by
    intro u hl hk
    simp [getProperty, hl, hk, Property.truthy]
  rcases h with ⟨hl, hk⟩ | ⟨hl, hk⟩
  · simp [converterResult, hc, key u1 hl hk, roundTo6]
  · simp [converterResult, hc, key u2 hl hk, roundTo6]

/-- Meters to the unknown unit `parsec`: the value `5` comes back. -/
theorem converter_unknown_unit_fallback_witness :
    Category.length ≠ Category.temperature ∧
    ((conversionFactors Category.length).lookup "parsec" = none ∧
      "parsec" ∉ objectPrototypeKeys) ∧
    converterResult (Num.fin 5) Category.length "meter" "parsec" =
      Num.div (Num.round (Num.mul (Num.fin 5) (Num.fin 1000000))) (Num.fin 1000000) :=
  ⟨by decide, by decide,
    converter_unknown_unit_fallback (Num.fin 5) Category.length "meter" "parsec"
      (by decide) (Or.inr (by decide))⟩

/-! ## The expression evaluator -/

theorem replaceAllAux_bang (l : List Char) :
    replaceAllAux ['!'] [] 0 l = l.filter (fun c => c != '!') := by
  induction l with
  | nil => rfl
  | cons c cs ih =>
    by_cases hc : c = '!'
    · subst hc
      simp [replaceAllAux, List.isPrefixOf, ih]
    · have hc2 : ¬ '!' = c := fun h => hc h.symm
      simp [replaceAllAux, List.isPrefixOf, ih, hc, hc2]

theorem bang_not_mem_replaceFunctions (expression : List Char) :
    '!' ∉ replaceFunctions expression := by
  unfold replaceFunctions
  generalize replaceAll "^" "**" _ = l
  have : replaceAll "!" "" l = l.filter (fun c => c != '!') := replaceAllAux_bang l
  rw [this]
  simp

theorem matchFactorialAt_none (cs : List Char) (h : '!' ∉ cs) : matchFactorialAt cs = none := by
  unfold matchFactorialAt
  simp only
  split_ifs with h1
  · rfl
  · split
    · next tl heq =>
      exfalso
      apply h
      have m1 : '!' ∈ List.dropWhile isWhiteSpace
          (List.drop (match List.dropWhile isDigit cs with
            | '.' :: r =>
              if List.takeWhile isDigit r = [] then [] else '.' :: List.takeWhile isDigit r
            | _ => []).length (List.dropWhile isDigit cs)) := by
        rw [heq]
        exact List.mem_cons_self _ _
      exact (List.dropWhile_sublist _).subset
        (List.mem_of_mem_drop ((List.dropWhile_sublist _).subset m1))
    · rfl

theorem replaceFactorial_of_no_bang (rep l : List Char) (h : '!' ∉ l) :
    replaceFactorial rep l = l := by
  induction l with
  | nil => rfl
  | cons c cs ih =>
    have hcs : '!' ∉ cs := fun hm => h (List.mem_cons_of_mem _ hm)
    simp [replaceFactorial, matchFactorialAt_none (c :: cs) h, ih hcs]

theorem isDigit_not_whiteSpace (c : Char) (h : isDigit c = true) : isWhiteSpace c = false := by
  simp only [isDigit, Bool.and_eq_true, decide_eq_true_eq] at h
  have key : ∀ n : ℕ, 48 ≤ n → n ≤ 57 →
      ([9, 10, 11, 12, 13, 32, 160, 5760, 8232, 8233, 8239, 8287, 12288, 65279].contains n
        || (decide (8192 ≤ n) && decide (n ≤ 8202))) = false := by
    intro n h1 h2
    interval_cases n <;> rfl
  exact key c.toNat h.1 h.2

theorem matchFactorialAt_head (cs lit : List Char) (n : ℕ)
    (h : matchFactorialAt cs = some (lit, n)) :
    ∃ d rest, lit = d :: rest ∧ isDigit d = true := by
  unfold matchFactorialAt at h
  simp only at h
  split_ifs at h with h1
  split at h
  · simp only [Option.some.injEq, Prod.mk.injEq] at h
    obtain ⟨hl, -⟩ := h
    cases hip : List.takeWhile isDigit cs with
    | nil => exact absurd hip h1
    | cons d tl =>
      rw [hip] at hl
      refine ⟨d, _, hl.symm, ?_⟩
      · have : d ∈ List.takeWhile isDigit cs := by rw [hip]; exact List.mem_cons_self _ _
        exact List.mem_takeWhile_imp this
  · simp at h

theorem matchFactorial_head (cs lit : List Char) (h : matchFactorial cs = some lit) :
    ∃ d rest, lit = d :: rest ∧ isDigit d = true := by
  induction cs with
  | nil => simp [matchFactorial] at h
  | cons c cs ih =>
    unfold matchFactorial at h
    split at h
    · next l n heq =>
      simp only [Option.some.injEq] at h
      subst h
      exact matchFactorialAt_head _ _ _ heq
    · exact ih h

theorem parseFloatChars_digit_head (d : Char) (rest : List Char) (h : isDigit d = true) :
    parseFloatChars (d :: rest) ≠ Num.inf false := by
  have hw := isDigit_not_whiteSpace d h
  simp only [isDigit, Bool.and_eq_true, decide_eq_true_eq] at h
  have hminus : d ≠ '-' := by rintro rfl; revert h; decide
  have hplus : d ≠ '+' := by rintro rfl; revert h; decide
  have hI : d ≠ 'I' := by rintro rfl; revert h; decide
  unfold parseFloatChars
  simp only [List.dropWhile, hw]
  split
  · next heq => simp at heq; exact absurd heq.1 hminus
  · next heq => simp at heq; exact absurd heq.1 hplus
  · unfold parseUnsignedNum
    have : ("Infinity".data.isPrefixOf (d :: rest)) = false := by
      simp [List.isPrefixOf]
      intro h1
      exact absurd h1.symm hI
    rw [this]
    simp only [Bool.false_eq_true, if_false]
    split <;> simp

theorem factorial_floor_isSome (n : Num) (h : n ≠ Num.inf false) :
    ∃ r, factorial (Num.floor n) = some r := by
  cases n with
  | nan => exact ⟨_, rfl⟩
  | inf s =>
    cases s
    · exact absurd rfl h
    · exact ⟨_, rfl⟩
  | fin q =>
    simp only [Num.floor, factorial]
    split_ifs <;> exact ⟨_, rfl⟩

/-- The text `processedExpression` is, for every input, the result of the
chain of `replace` calls: that chain has removed every `!`, so the later
replacement of the literal before `!` finds no match. -/
theorem processExpression_eq (numberToString : Num → String) (expression : String) :
    processExpression numberToString expression =
      some (String.mk (replaceFunctions expression.data)) := by
  unfold processExpression
  simp only
  split_ifs
  · split
    · next lit heq =>
      obtain ⟨d, rest, rfl, hd⟩ := matchFactorial_head _ _ heq
      obtain ⟨r, hr⟩ := factorial_floor_isSome _ (parseFloatChars_digit_head d rest hd)
      rw [hr]
      simp only
      rw [replaceFactorial_of_no_bang _ _ (bang_not_mem_replaceFunctions _)]
    · rfl
  · rfl

/-- C8: the factorial is never applied.  For every input the text handed to
the host is the result of the `replace` chain alone, which has dropped each
`!`; for `5!` that text is `5` and for `0!` it is `0`, so the evaluation of
`5!` is whatever the host returns for the source `return (5)`, not `120`. -/
theorem evaluateExpression_factorial_dropped (numberToString : Num → String)
    (run : String → Except String String) :
    (∀ expression : String, processExpression numberToString expression =
      some (String.mk (replaceFunctions expression.data))) ∧
    processExpression numberToString "5!" = some "5" ∧
    processExpression numberToString "0!" = some "0" ∧
    factorial (Num.floor (parseFloatChars "5".data)) = some (Num.fin 120) ∧
    evaluateExpression numberToString run { initialState with expressionInput := "5!" } =
      some (match run "\"use strict\"; return (5)" with
        | Except.ok result =>
          { initialState with
            expressionInput := "5!"
            currentOperand := Value.str result
            shouldResetScreen := true }
        | Except.error message =>
          { initialState with
            expressionInput := "5!"
            alerts := ["Invalid expression: " ++ message] }) := by
  have e5 : processExpression numberToString "5!" = some "5" := by
    rw [processExpression_eq]
    decide
  have e0 : processExpression numberToString "0!" = some "0" := by
    rw [processExpression_eq]
    decide
  refine ⟨processExpression_eq numberToString, e5, e0, by decide!, ?_⟩
  have ht : trim "5!" = "5!" := by decide
  have hb : functionBody "5" = "\"use strict\"; return (5)" := by decide
  simp only [evaluateExpression, initialState, ht, e5, hb]
  rw [if_neg (by decide)]
  split <;> simp_all

/-- C9: the degree conversion multiplies only the first factor of the
argument.  For `sin(30+60)` the text handed to the host is
`Math.sin(Math.PI/180*30+60)`, the sine of `π/6 + 60` radians and not of
`(30+60) * π/180`; likewise for `cos` and `tan`. -/
theorem evaluateExpression_trig_compound (numberToString : Num → String) :
    processExpression numberToString "sin(30+60)" = some "Math.sin(Math.PI/180*30+60)" ∧
    processExpression numberToString "cos(30+60)" = some "Math.cos(Math.PI/180*30+60)" ∧
    processExpression numberToString "tan(30+60)" = some "Math.tan(Math.PI/180*30+60)" ∧
    processExpression numberToString "sin(30)" = some "Math.sin(Math.PI/180*30)" := by
  simp only [processExpression_eq]
  decide

/-- C11: `clearCalculator` resets the two operands and the operation for every
state, but it leaves `shouldResetScreen` as it was.  After the key `+` on the
initial state that flag is `true`, and the state after `clearCalculator` is
not the state the constructor creates, whose flag is `false`. -/
theorem clearCalculator_keeps_reset_flag :
    (∀ s : State,
      (clearCalculator s).currentOperand = Value.str "0" ∧
      (clearCalculator s).previousOperand = Value.str "" ∧
      (clearCalculator s).operation = none ∧
      (clearCalculator s).shouldResetScreen = s.shouldResetScreen) ∧
    chooseOperation initialState Operation.add =
      ⟨Value.str "0", Value.str "0", some Operation.add, true, "", []⟩ ∧
    clearCalculator (chooseOperation initialState Operation.add) =
      ⟨Value.str "0", Value.str "", none, true, "", []⟩ ∧
    initialState.shouldResetScreen = false ∧
    clearCalculator (chooseOperation initialState Operation.add) ≠ initialState := by
  refine ⟨fun s => ⟨rfl, rfl, rfl, rfl⟩, by decide, by decide, rfl, by decide⟩

/-- C12: after the keys `3 + 4 =` the current operand is the number `7`, not a
text, and `deleteDigit` raises a `TypeError` instead of removing a character;
so it does on every state whose current operand is a number.  On a text it
removes the last character, or gives `0` for a single character. -/
theorem deleteDigit_after_calculate (numberToString : Num → String) :
    calculate (appendNumber numberToString
      (chooseOperation (appendNumber numberToString initialState "3") Operation.add) "4") =
      ⟨Value.num (Num.fin 7), Value.str "", none, true, "", []⟩ ∧
    deleteDigit ⟨Value.num (Num.fin 7), Value.str "", none, true, "", []⟩ =
      Except.error "this.currentOperand.slice is not a function" ∧
    (∀ (s : State) (n : Num), deleteDigit { s with currentOperand := Value.num n } =
      Except.error "this.currentOperand.slice is not a function") ∧
    (∀ (s : State) (t : String), deleteDigit { s with currentOperand := Value.str t } =
      Except.ok { s with
        currentOperand :=
          Value.str (if t.length = 1 ∨ t = "0" then "0" else String.mk t.data.dropLast) }) := by
  refine ⟨by with_unfolding_all rfl, rfl, fun s n => rfl, fun s t => ?_⟩
  simp only [deleteDigit]
  split_ifs <;> rfl

theorem calculatePercentage_of_pending (numberToString : Num → String) (s : State)
    (hprev : s.previousOperand ≠ Value.str "") (hop : s.operation ≠ none) :
    calculatePercentage numberToString s = calculate s := by
  simp [calculatePercentage, hprev, hop]

theorem calculatePercentage_of_no_operation (numberToString : Num → String) (s : State)
    (hop : s.operation = none) :
    calculatePercentage numberToString s =
      { s with
        currentOperand :=
          Value.str (numberToString (Num.div (parseFloat s.currentOperand) (Num.fin 100))) } := by
  simp [calculatePercentage, hop]

/-- C14: with an operator pending, `calculatePercentage` calls `calculate`,
which applies the pending operator and not the percent formula.  After the
keys `2 0 0 + 1 0` the percent action gives `200 + 10 = 210`, whereas
`previous * (current / 100)` is `20`.  With no operator pending it stores the
text of `current / 100` and changes nothing else. -/
theorem calculatePercentage_applies_pending_operator (numberToString : Num → String) :
    appendNumber numberToString (appendNumber numberToString
      (chooseOperation
        (appendNumber numberToString (appendNumber numberToString
          (appendNumber numberToString initialState "2") "0") "0")
        Operation.add) "1") "0" =
      ⟨Value.str "10", Value.str "200", some Operation.add, false, "", []⟩ ∧
    calculatePercentage numberToString
      ⟨Value.str "10", Value.str "200", some Operation.add, false, "", []⟩ =
      ⟨Value.num (Num.fin 210), Value.str "", none, true, "", []⟩ ∧
    roundTo8 (Num.mul (Num.fin 200) (Num.div (Num.fin 10) (Num.fin 100))) = Num.fin 20 ∧
    Num.fin 210 ≠ Num.fin 20 ∧
    (∀ s : State, calculatePercentage numberToString { s with operation := none } =
      { s with
        operation := none
        currentOperand :=
          Value.str (numberToString (Num.div (parseFloat s.currentOperand) (Num.fin 100))) }) := by
  refine ⟨by with_unfolding_all rfl, by with_unfolding_all rfl, by decide!, by decide!, ?_⟩
  intro s
  simp [calculatePercentage]

/-- C15: the action `inverse`.  When the current operand does not read as zero,
it is replaced by the text of `1 / current` (for a finite `q ≠ 0`, of the
rational `1 / q`) and `shouldResetScreen` is set; when it reads as zero, the
alert `Cannot divide by zero` is shown and the current operand, the previous
operand, the operation and `shouldResetScreen` all keep their values. -/
theorem handleAction_inverse (numberToString : Num → String) (s : State) :
    (parseFloat s.currentOperand ≠ Num.fin 0 →
      handleAction numberToString s Action.inverse =
        Except.ok { s with
          currentOperand :=
            Value.str (numberToString (Num.div (Num.fin 1) (parseFloat s.currentOperand)))
          shouldResetScreen := true }) ∧
    (∀ q : ℚ, q ≠ 0 → parseFloat s.currentOperand = Num.fin q →
      handleAction numberToString s Action.inverse =
        Except.ok { s with
          currentOperand := Value.str (numberToString (Num.fin (1 / q)))
          shouldResetScreen := true }) ∧
    (parseFloat s.currentOperand = Num.fin 0 →
      handleAction numberToString s Action.inverse =
        Except.ok { s with alerts := s.alerts ++ ["Cannot divide by zero"] } ∧
      ∀ s1, handleAction numberToString s Action.inverse = Except.ok s1 →
        s1.currentOperand = s.currentOperand ∧ s1.previousOperand = s.previousOperand ∧
        s1.operation = s.operation ∧ s1.shouldResetScreen = s.shouldResetScreen) := by
  refine ⟨?_, ?_, ?_⟩
  · intro h
    simp [handleAction, h]
  · intro q hq h
    have hne : Num.fin q ≠ Num.fin 0 := by
      intro hc
      exact hq (Num.fin.inj hc)
    simp [handleAction, h, hne, Num.div, hq]
  · intro h
    have e : handleAction numberToString s Action.inverse =
        Except.ok { s with alerts := s.alerts ++ ["Cannot divide by zero"] } := by
      simp [handleAction, h]
    refine ⟨e, ?_⟩
    intro s1 h1
    rw [e] at h1
    cases h1
    exact ⟨rfl, rfl, rfl, rfl⟩

/-- The inverse of `4` and of `0`: `4` reads as a number other than zero, `0`
reads as zero. -/
theorem handleAction_inverse_witness :
    parseFloat (Value.str "4") = Num.fin 4 ∧ (4 : ℚ) ≠ 0 ∧
    handleAction (fun _ => "0.25") ⟨Value.str "4", Value.str "", none, false, "", []⟩
        Action.inverse =
      Except.ok ⟨Value.str "0.25", Value.str "", none, true, "", []⟩ ∧
    parseFloat (Value.str "0") = Num.fin 0 ∧
    handleAction (fun _ => "0.25") ⟨Value.str "0", Value.str "", none, false, "", []⟩
        Action.inverse =
      Except.ok ⟨Value.str "0", Value.str "", none, false, "", ["Cannot divide by zero"]⟩ :=
  ⟨by decide!, by norm_num,
    (handleAction_inverse (fun _ => "0.25")
      ⟨Value.str "4", Value.str "", none, false, "", []⟩).2.1 4 (by norm_num) (by decide!),
    by decide!,
    ((handleAction_inverse (fun _ => "0.25")
      ⟨Value.str "0", Value.str "", none, false, "", []⟩).2.2 (by decide!)).1⟩

/-! ## The operand invariant -/

theorem operandInvariant_append_char (cs : List Char) (c : Char) (hc : c ≠ '.')
    (h : operandInvariant cs) (h0 : cs ≠ ['0']) : operandInvariant (cs ++ [c]) := by
  obtain ⟨hne, hcount, hlead⟩ := h
  refine ⟨by simp, ?_, ?_⟩
  · rw [List.count_append]
    have : List.count '.' [c] = 0 := by
      simp [List.count_cons, hc]
    omega
  · match cs, hne, h0, hlead with
    | [a], _, h0, _ =>
      intro hh
      simp at hh
      subst hh
      exact absurd rfl h0
    | a :: b :: rest, _, _, hlead =>
      intro hh
      simp at hh
      subst hh
      rcases hlead rfl with h1 | h1
      · simp at h1
      · right
        simp [List.isPrefixOf] at h1 ⊢
        exact h1

theorem operandInvariant_append_point (cs : List Char)
    (h : operandInvariant cs) (hp : '.' ∉ cs) : operandInvariant (cs ++ ['.']) := by
  obtain ⟨hne, -, hlead⟩ := h
  refine ⟨by simp, ?_, ?_⟩
  · rw [List.count_append, List.count_eq_zero_of_not_mem hp]
    simp
  · match cs, hne, hp, hlead with
    | [a], _, _, _ =>
      intro hh
      simp at hh
      subst hh
      right
      decide
    | a :: b :: rest, _, hp, hlead =>
      intro hh
      simp at hh
      subst hh
      rcases hlead rfl with h1 | h1
      · simp at h1
      · exfalso
        simp [List.isPrefixOf] at h1
        subst h1
        exact hp (by simp)

theorem operandInvariant_dropLast (cs : List Char)
    (h : operandInvariant cs) (hl : cs.length ≠ 1) : operandInvariant cs.dropLast := by
  obtain ⟨hne, hcount, hlead⟩ := h
  match cs, hne, hl, hcount, hlead with
  | [a], _, hl, _, _ => simp at hl
  | a :: b :: rest, _, _, hcount, hlead =>
    refine ⟨by simp [List.dropLast], ?_, ?_⟩
    · exact le_trans ((List.dropLast_sublist _).count_le _) hcount
    · intro hh
      simp [List.dropLast] at hh
      subst hh
      rcases hlead rfl with h1 | h1
      · simp at h1
      · simp [List.isPrefixOf] at h1
        subst h1
        cases rest with
        | nil => left; rfl
        | cons r rs => right; simp [List.dropLast, List.isPrefixOf]

theorem digitText_data (d : Fin 10) :
    ∃ c, (digitText d).data = [c] ∧ c ≠ '.' ∧ operandInvariant [c] := by
  fin_cases d <;> exact ⟨_, rfl, by decide, by decide⟩

/-- The invariant carried along a key sequence: the flag is off and the current
operand is a text that satisfies the operand invariant. -/
theorem press_invariant (numberToString : Num → String) (s : State) (k : Key)
    (hflag : s.shouldResetScreen = false)
    (hcur : ∃ t, s.currentOperand = Value.str t ∧ operandInvariant t.data) :
    ∃ s1, press numberToString s k = Except.ok s1 ∧ s1.shouldResetScreen = false ∧
      ∃ t, s1.currentOperand = Value.str t ∧ operandInvariant t.data := by
  obtain ⟨t, ht, hinv⟩ := hcur
  cases k with
  | digit d =>
    obtain ⟨c, hd, hc, hinvc⟩ := digitText_data d
    refine ⟨_, rfl, ?_, ?_⟩
    · simp only [appendNumber]
      split_ifs <;> simp [hflag]
    · simp only [appendNumber, ht, hflag]
      by_cases h0 : t = "0"
      · refine ⟨digitText d, ?_, ?_⟩
        · simp [h0]
        · rw [hd]; exact hinvc
      · refine ⟨t ++ digitText d, ?_, ?_⟩
        · simp [h0, Value.concat]
        · rw [String.data_append, hd]
          refine operandInvariant_append_char _ _ hc hinv ?_
          intro hcs
          apply h0
          exact String.ext hcs
  | decimal =>
    have e : press numberToString s Key.decimal =
        if t.data.contains '.' = true then Except.ok s
        else Except.ok { s with currentOperand := Value.str (t ++ ".") } := by
      simp only [press]
      unfold addDecimal
      rw [if_neg (by simp [hflag]), ht]
    by_cases hp : t.data.contains '.' = true
    · rw [if_pos hp] at e
      exact ⟨s, e, hflag, t, ht, hinv⟩
    · rw [if_neg hp] at e
      refine ⟨{ s with currentOperand := Value.str (t ++ ".") }, e, hflag, t ++ ".", rfl, ?_⟩
      rw [String.data_append]
      refine operandInvariant_append_point _ hinv ?_
      simpa using hp
  | backspace =>
    have e : press numberToString s Key.backspace =
        if t.length = 1 ∨ t = "0" then Except.ok { s with currentOperand := Value.str "0" }
        else Except.ok { s with currentOperand := Value.str (String.mk t.data.dropLast) } := by
      simp only [press]
      unfold deleteDigit
      rw [ht]
    by_cases h1 : t.length = 1 ∨ t = "0"
    · rw [if_pos h1] at e
      exact ⟨{ s with currentOperand := Value.str "0" }, e, hflag, "0", rfl, by decide⟩
    · rw [if_neg h1] at e
      refine ⟨{ s with currentOperand := Value.str (String.mk t.data.dropLast) }, e, hflag,
        String.mk t.data.dropLast, rfl, ?_⟩
      refine operandInvariant_dropLast _ hinv ?_
      intro hl
      exact h1 (Or.inl hl)
  | clear =>
    exact ⟨_, rfl, hflag, "0", rfl, by decide⟩

/-- C13: every sequence of digit, decimal point, backspace and clear keys
pressed on the initial state runs to a state (no key raises an exception)
whose current operand is a text that is not empty, holds at most one decimal
point and has no leading zero unless it is `0` or begins with `0.`. -/
theorem pressAll_operandInvariant (numberToString : Num → String) (keys : List Key) :
    ∃ s, pressAll numberToString initialState keys = Except.ok s ∧
      ∃ t, s.currentOperand = Value.str t ∧ operandInvariant t.data := by
  have general : ∀ (ks : List Key) (s0 : State), s0.shouldResetScreen = false →
      (∃ t, s0.currentOperand = Value.str t ∧ operandInvariant t.data) →
      ∃ s, pressAll numberToString s0 ks = Except.ok s ∧
        ∃ t, s.currentOperand = Value.str t ∧ operandInvariant t.data := by
    intro ks
    induction ks with
    | nil =>
      intro s0 _ hcur
      exact ⟨s0, rfl, hcur⟩
    | cons k ks ih =>
      intro s0 hflag hcur
      obtain ⟨s1, hs1, hflag1, hcur1⟩ := press_invariant numberToString s0 k hflag hcur
      obtain ⟨s2, hs2, hcur2⟩ := ih s1 hflag1 hcur1
      exact ⟨s2, by simp [pressAll, hs1, hs2], hcur2⟩
  exact general keys initialState rfl ⟨"0", rfl, by decide⟩

/-! ## Tables, factorial and input validation -/

/-- C16: the length, weight, area and volume tables of `conversionFactors`
hold exactly the factors the specification lists, in the same order; every
factor stored in a table is strictly positive; and the base units meter,
kilogram, squareMeter and liter have factor `1`. -/
theorem conversionFactors_canonical :
    conversionFactors Category.length =
      (specFactors Category.length).map (fun p => (p.1, Value.num (Num.fin p.2))) ∧
    conversionFactors Category.weight =
      (specFactors Category.weight).map (fun p => (p.1, Value.num (Num.fin p.2))) ∧
    conversionFactors Category.area =
      (specFactors Category.area).map (fun p => (p.1, Value.num (Num.fin p.2))) ∧
    conversionFactors Category.volume =
      (specFactors Category.volume).map (fun p => (p.1, Value.num (Num.fin p.2))) ∧
    (∀ (category : Category) (unit : String) (f : ℚ),
      factor category unit = some f → 0 < f) ∧
    factor Category.length "meter" = some 1 ∧
    factor Category.weight "kilogram" = some 1 ∧
    factor Category.area "squareMeter" = some 1 ∧
    factor Category.volume "liter" = some 1 := by
  refine ⟨by decide!, by decide!, by decide!, by decide!, ?_,
    by decide!, by decide!, by decide!, by decide!⟩
  intro category unit f h
  exact factor_pos h

/-- The factor of the mile: it is stored in the length table and is positive. -/
theorem conversionFactors_canonical_witness :
    factor Category.length "mile" = some (160934 / 100) ∧ (0 : ℚ) < 160934 / 100 :=
  ⟨by decide!,
    conversionFactors_canonical.2.2.2.2.1 Category.length "mile" (160934 / 100) (by decide!)⟩

/-- C18: for the input `-.` the text written back is `-`, which holds no
digit and so is not a valid number; the same happens for `.-` and `-..`. -/
theorem validateConverterInput_minus_point :
    validateConverterInput "-." = "-" ∧
    validateConverterInput ".-" = "-" ∧
    validateConverterInput "-.." = "-" ∧
    ¬ validNumber (validateConverterInput "-.").data ∧
    ¬ (∃ c ∈ "-".data, isDigit c = true) := by
  have e : validateConverterInput "-." = "-" := by decide
  refine ⟨e, by decide, by decide, ?_, by decide⟩
  rw [e]
  decide

end FoCalculator
